import Mathlib

/-!
Shallow embedding of the `shared_services` repository
(`company_detection/detector.py`, `email/resend_service.py`,
`supabase_auth/magic_link_old.py`) and proofs of the specification claims.

Python strings are modelled as Lean `String`, Python floats that only ever
hold exact decimal constants as `ℚ`, Python dicts (which iterate in
insertion order) as association lists `List (key × value)` in insertion
order, where deleting the first-inserted key is `List.tail` and inserting a
fresh key appends at the end.  Wall-clock time (`datetime.now`) influences
only the `total_response_time` metric; it is abstracted as an elapsed time
of 0, which no claim observes.
-/

namespace SharedServices

/-! ### String helpers mirroring the Python string/regex operations -/

/-- `startsWithL p l` : the char list `l` starts with the pattern `p`. -/
def startsWithL : List Char → List Char → Bool
  | [], _ => true
  | _ :: _, [] => false
  | p :: ps, c :: cs => p == c && startsWithL ps cs

/-- `endsWithL p l` : the char list `l` ends with the pattern `p`. -/
def endsWithL (p l : List Char) : Bool :=
  startsWithL p.reverse l.reverse

/-- `hasSubstrL p l` : the pattern `p` occurs contiguously inside `l`
(Python `p in s`). -/
def hasSubstrL (p : List Char) : List Char → Bool
  | [] => startsWithL p []
  | c :: cs => startsWithL p (c :: cs) || hasSubstrL p cs

/-- Python `p in s` on strings. -/
def pyIn (p s : String) : Bool := hasSubstrL p.data s.data

/-- Python `s.startswith(p)`. -/
def pyStartsWith (p s : String) : Bool := startsWithL p.data s.data

/-- Python `s.endswith(p)`. -/
def pyEndsWith (p s : String) : Bool := endsWithL p.data s.data

/-- Lower-case a string character-wise (Python `str.lower` on ASCII data). -/
def pyLower (s : String) : String := String.mk (s.data.map Char.toLower)

/-! ### Company detection (`company_detection/detector.py`) -/

/-- `dataclass CompanyDetectionResult` (detector.py lines 15-23).
`confidence` is a float holding only exact decimal constants, modelled
as `ℚ`; `metadata` (a `Dict[str, Any]` only ever holding
`{'provider': domain}`) is modelled as a string-to-string association
list. -/
structure CompanyDetectionResult where
  company : Option String
  type : String
  confidence : ℚ
  industry : Option String := none
  website : Option String := none
  metadata : Option (List (String × String)) := none
deriving DecidableEq, Repr

/-- The service metrics dict (detector.py lines 31-36). -/
structure Metrics where
  total_detections : ℕ
  cache_hits : ℕ
  total_response_time : ℚ
  cache_size : ℕ
deriving DecidableEq, Repr

/-- `CompanyDetectionService` mutable state: the cache dict (insertion
ordered) and the metrics dict. -/
structure CompanyDetectionService where
  cache : List (String × CompanyDetectionResult)
  metrics : Metrics
deriving DecidableEq, Repr

/-- `self.personal_providers` (detector.py lines 39-44). -/
def personal_providers : List String :=
  ["gmail.com", "yahoo.com", "outlook.com", "hotmail.com", "icloud.com",
   "aol.com", "protonmail.com", "yandex.com", "mail.ru", "me.com",
   "live.com", "msn.com", "yahoo.co.uk", "yahoo.ca", "yahoo.fr",
   "googlemail.com", "outlook.co.uk", "btinternet.com", "sky.com"]

/-- `self.corporate_info` (detector.py lines 47-64): domain ↦ (name,
industry).  `industry` is `Option` because the code reads it with
`info.get('industry')`. -/
def corporate_info : List (String × String × Option String) :=
  [("microsoft.com", "Microsoft", some "Technology"),
   ("apple.com", "Apple", some "Technology"),
   ("google.com", "Google", some "Technology"),
   ("amazon.com", "Amazon", some "Technology"),
   ("meta.com", "Meta", some "Technology"),
   ("facebook.com", "Facebook", some "Technology"),
   ("tesla.com", "Tesla", some "Automotive"),
   ("netflix.com", "Netflix", some "Entertainment"),
   ("salesforce.com", "Salesforce", some "Technology"),
   ("oracle.com", "Oracle", some "Technology"),
   ("ibm.com", "IBM", some "Technology"),
   ("adobe.com", "Adobe", some "Technology"),
   ("shopify.com", "Shopify", some "E-commerce"),
   ("stripe.com", "Stripe", some "Financial Services"),
   ("anthropic.com", "Anthropic", some "AI/Technology"),
   ("openai.com", "OpenAI", some "AI/Technology")]

/-- A character matched by the regex class `[a-zA-Z0-9.-]`. -/
def isDomainChar (c : Char) : Bool :=
  c.isAlpha || c.isDigit || c == '.' || c == '-'

/-- Leftmost match of `re.search(r'@([a-zA-Z0-9.-]+)', email)` (detector.py
line 85): find the first `'@'` that is immediately followed by at least one
domain character and capture the maximal run of domain characters after
it. -/
def findDomainL : List Char → Option (List Char)
  | [] => none
  | '@' :: rest =>
    match rest with
    | c :: _ =>
      if isDomainChar c then some (rest.takeWhile isDomainChar)
      else findDomainL rest
    | [] => none
  | _ :: rest => findDomainL rest

/-- Extract and lower-case the domain (`domain_match.group(1).lower()`). -/
def extract_domain (email : String) : Option String :=
  (findDomainL email.data).map (fun l => String.mk (l.map Char.toLower))

/-- `_get_personal_provider_name` (detector.py lines 155-165). -/
def get_personal_provider_name (domain : String) : String :=
  match List.lookup domain
      [("gmail.com", "Gmail"), ("yahoo.com", "Yahoo"),
       ("outlook.com", "Outlook"), ("hotmail.com", "Hotmail"),
       ("icloud.com", "iCloud"), ("aol.com", "AOL")] with
  | some n => n
  | none => domain

/-- Whether the suffix starting here matches the whole of
`\.(edu|ac\.uk|ac\..+)$`: a dot followed by exactly `edu`, exactly
`ac.uk`, or `ac.` plus at least one more character, running to the end of
the string. -/
def eduSuffixAt : List Char → Bool
  | '.' :: rest =>
    rest == ['e', 'd', 'u'] || rest == ['a', 'c', '.', 'u', 'k'] ||
      (startsWithL ['a', 'c', '.'] rest && decide (rest.length ≥ 4))
  | _ => false

/-- `re.sub(r'\.(edu|ac\.uk|ac\..+)$', '', domain)` (detector.py line 170):
cut at the leftmost position whose suffix matches the pattern. -/
def stripEduSuffixL : List Char → List Char
  | [] => []
  | c :: rest =>
    if eduSuffixAt (c :: rest) then [] else c :: stripEduSuffixL rest

/-- Python `" ".join(words)`. -/
def joinSpL : List (List Char) → List Char
  | [] => []
  | [w] => w
  | w :: v :: t => w ++ ' ' :: joinSpL (v :: t)

/-- Python no-argument `str.split()` restricted to spaces: split on runs of
spaces, discarding empty pieces.  `acc` is the current word, reversed. -/
def wordsAux (acc : List Char) : List Char → List (List Char)
  | [] => if acc.isEmpty then [] else [acc.reverse]
  | c :: rest =>
    if c == ' ' then
      if acc.isEmpty then wordsAux [] rest
      else acc.reverse :: wordsAux [] rest
    else wordsAux (c :: acc) rest

/-- Python `str.capitalize()`: first character upper-cased, the rest
lower-cased. -/
def pyCapitalizeL : List Char → List Char
  | [] => []
  | c :: rest => c.toUpper :: rest.map Char.toLower

/-- `_extract_university_name` (detector.py lines 167-184). -/
def extract_university_name (domain : String) : String :=
  let name := String.mk (joinSpL
    ((wordsAux [] ((stripEduSuffixL domain.data).map
        (fun c => if c == '.' then ' ' else c))).map pyCapitalizeL))
  match List.lookup (pyLower name)
      [("stanford", "Stanford University"), ("mit", "MIT"),
       ("harvard", "Harvard University"), ("berkeley", "UC Berkeley"),
       ("oxford", "Oxford University"),
       ("cambridge", "Cambridge University")] with
  | some n => n
  | none => name ++ " University"

/-- `re.sub(r'\.(gov|mil)$', '', domain)`: the two alternatives are exact
suffixes and mutually exclusive. -/
def stripGovSuffixL (l : List Char) : List Char :=
  if endsWithL ".gov".data l then l.take (l.length - 4)
  else if endsWithL ".mil".data l then l.take (l.length - 4)
  else l

/-- `_extract_government_name` (detector.py lines 186-202). -/
def extract_government_name (domain : String) : String :=
  if pyIn "nasa" domain then "NASA"
  else if pyIn "state" domain then "US State Department"
  else if pyIn "army" domain then "US Army"
  else if pyIn "navy" domain then "US Navy"
  else if pyIn "airforce" domain then "US Air Force"
  else
    String.mk (((stripGovSuffixL domain.data).map
      (fun c => if c == '.' then ' ' else c)).map Char.toUpper)

/-- `re.sub(r'^(www\.|mail\.|email\.)', '', domain)` (detector.py line
207): the anchor makes at most one replacement, at position 0. -/
def stripLeadL (l : List Char) : List Char :=
  if startsWithL "www.".data l then l.drop 4
  else if startsWithL "mail.".data l then l.drop 5
  else if startsWithL "email.".data l then l.drop 6
  else l

/-- `re.sub(r'\.(com|org|net|co|io|ai|tech|inc)$', '', ...)` (detector.py
line 208).  Each alternative is a literal that must run to the end of the
string, and no two of the dotted suffixes can end the same string, so the
sub is an exclusive suffix strip. -/
def stripTld1L (l : List Char) : List Char :=
  if endsWithL ".com".data l then l.take (l.length - 4)
  else if endsWithL ".org".data l then l.take (l.length - 4)
  else if endsWithL ".net".data l then l.take (l.length - 4)
  else if endsWithL ".co".data l then l.take (l.length - 3)
  else if endsWithL ".io".data l then l.take (l.length - 3)
  else if endsWithL ".ai".data l then l.take (l.length - 3)
  else if endsWithL ".tech".data l then l.take (l.length - 5)
  else if endsWithL ".inc".data l then l.take (l.length - 4)
  else l

/-- `re.sub(r'\.(co\.uk|com\.au|co\.in)$', '', ...)` (detector.py line
209), again an exclusive suffix strip. -/
def stripTld2L (l : List Char) : List Char :=
  if endsWithL ".co.uk".data l then l.take (l.length - 6)
  else if endsWithL ".com.au".data l then l.take (l.length - 7)
  else if endsWithL ".co.in".data l then l.take (l.length - 6)
  else l

/-- `_extract_company_from_domain` (detector.py lines 204-215). -/
def extract_company_from_domain (domain : String) : Option String :=
  let clean := stripTld2L (stripTld1L (stripLeadL domain.data))
  if clean.length < 2 then none
  else
    match clean with
    | [] => none
    | c :: rest => some (String.mk (c.toUpper :: rest))

/-- `_infer_industry` (detector.py lines 217-229). -/
def infer_industry (domain : String) : Option String :=
  if pyIn "bank" domain || pyIn "finance" domain then
    some "Financial Services"
  else if pyIn "tech" domain || pyIn "ai" domain || pyIn "software" domain then
    some "Technology"
  else if pyIn "health" domain || pyIn "medical" domain
      || pyIn "pharma" domain then
    some "Healthcare"
  else if pyIn "consulting" domain then some "Consulting"
  else if pyIn "law" domain || pyIn "legal" domain then some "Legal Services"
  else none

/-- The rule cascade applied to an extracted, lower-cased domain
(detector.py lines 97-153). -/
def classify_domain (domain : String) : CompanyDetectionResult :=
  if personal_providers.contains domain then
      { company := some (get_personal_provider_name domain),
        type := "personal", confidence := 1.0, website := none,
        metadata := some [("provider", domain)] }
    else if pyEndsWith ".edu" domain || pyIn ".edu." domain
        || pyEndsWith ".ac.uk" domain || pyIn ".ac." domain then
      { company := some (extract_university_name domain),
        type := "educational", confidence := 0.9,
        industry := some "Education", website := some domain }
    else if pyEndsWith ".gov" domain || pyEndsWith ".mil" domain
        || pyIn ".gov." domain then
      { company := some (extract_government_name domain),
        type := "government", confidence := 0.9,
        industry := some "Government", website := some domain }
    else
      match List.lookup domain corporate_info with
      | some info =>
        { company := some info.1, type := "corporate", confidence := 0.8,
          industry := info.2, website := some domain }
      | none =>
        let extracted := extract_company_from_domain domain
        { company := extracted, type := "corporate",
          confidence := if extracted.isSome then 0.6 else 0.2,
          industry := infer_industry domain,
          website := if extracted.isSome then some domain else none }

/-- The pure classification performed by `detect_from_email` on a cache
miss (detector.py lines 84-153): each rule builds a result and passes it
to `_cache_result`; this function is that result. -/
def classify_email (email : String) : CompanyDetectionResult :=
  match extract_domain email with
  | none =>
    { company := none, type := "unknown", confidence := 0, website := none }
  | some domain => classify_domain domain

/-- `_cache_result` (detector.py lines 231-252).  The elapsed wall-clock
time added to `total_response_time` is abstracted as 0.  Note the order of
operations from the source: `cache_size` is set to the length of the cache
*before* eviction and insertion, the oldest (first-inserted) entry is
evicted only when the current size already exceeds 1000, and the new entry
is then appended. -/
def cache_result (svc : CompanyDetectionService) (email : String)
    (result : CompanyDetectionResult) :
    CompanyDetectionResult × CompanyDetectionService :=
  let m := svc.metrics
  let m' : Metrics :=
    { total_detections := m.total_detections + 1,
      cache_hits := m.cache_hits,
      total_response_time := m.total_response_time + 0,
      cache_size := svc.cache.length }
  let cache' :=
    if svc.cache.length > 1000 then svc.cache.tail else svc.cache
  (result, { cache := cache' ++ [(email, result)], metrics := m' })

/-- `detect_from_email` (detector.py lines 66-153), returning the result
and the updated service state. -/
def detect_from_email (svc : CompanyDetectionService) (email : String) :
    CompanyDetectionResult × CompanyDetectionService :=
  match List.lookup email svc.cache with
  | some r =>
    (r, { svc with metrics :=
      { svc.metrics with
        cache_hits := svc.metrics.cache_hits + 1,
        total_detections := svc.metrics.total_detections + 1 } })
  | none => cache_result svc email (classify_email email)

/-- `clear_cache` (detector.py lines 270-273). -/
def clear_cache (svc : CompanyDetectionService) : CompanyDetectionService :=
  { svc with cache := [], metrics := { svc.metrics with cache_size := 0 } }

/-- The state built by `__init__` (detector.py lines 29-36). -/
def freshService : CompanyDetectionService :=
  { cache := [],
    metrics := { total_detections := 0, cache_hits := 0,
                 total_response_time := 0, cache_size := 0 } }

/-- Run a sequence of `detect_from_email` calls, keeping the final state. -/
def run_detections (svc : CompanyDetectionService) (emails : List String) :
    CompanyDetectionService :=
  emails.foldl (fun s e => (detect_from_email s e).2) svc

/-- Every cached value is the classification of its key: the invariant the
cache dict maintains, since `_cache_result` is only ever called with the
result just computed for `email`. -/
def CacheGood (svc : CompanyDetectionService) : Prop :=
  ∀ e r, (e, r) ∈ svc.cache → r = classify_email e

/-! ### Association-list cache lemmas -/

lemma lookup_mem {β : Type} {l : List (String × β)} {a : String} {b : β}
    (h : List.lookup a l = some b) : (a, b) ∈ l := by
  induction l with
  | nil => simp [List.lookup] at h
  | cons p t ih =>
    obtain ⟨k, v⟩ := p
    rw [List.lookup_cons] at h
    by_cases hk : a = k
    · subst hk
      simp at h
      simp [h]
    · have hbeq : (a == k) = false := beq_false_of_ne hk
      rw [hbeq] at h
      exact List.mem_cons_of_mem _ (ih h)

lemma lookup_tail_none {β : Type} {l : List (String × β)} {a : String}
    (h : List.lookup a l = none) : List.lookup a l.tail = none := by
  cases l with
  | nil => simp
  | cons p t =>
    obtain ⟨k, v⟩ := p
    rw [List.lookup_cons] at h
    cases hbeq : a == k with
    | true => rw [hbeq] at h; simp at h
    | false => rw [hbeq] at h; exact h

lemma lookup_append_single {β : Type} {l : List (String × β)} {a e : String}
    {r : β} (h : List.lookup a l = none) :
    List.lookup a (l ++ [(e, r)]) = if a = e then some r else none := by
  induction l with
  | nil =>
    simp [List.lookup_cons]
    by_cases he : a = e
    · simp [he]
    · simp [he, beq_false_of_ne he]
  | cons p t ih =>
    obtain ⟨k, v⟩ := p
    rw [List.lookup_cons] at h
    rw [List.cons_append, List.lookup_cons]
    cases hbeq : a == k with
    | true => rw [hbeq] at h; simp at h
    | false => rw [hbeq] at h; exact ih h

/-! ### Step lemmas for `detect_from_email` -/

lemma detect_hit {svc : CompanyDetectionService} {email : String}
    {r : CompanyDetectionResult} (h : List.lookup email svc.cache = some r) :
    detect_from_email svc email =
      (r, { svc with metrics :=
        { svc.metrics with
          cache_hits := svc.metrics.cache_hits + 1,
          total_detections := svc.metrics.total_detections + 1 } }) := by
  unfold detect_from_email
  rw [h]

lemma detect_miss {svc : CompanyDetectionService} {email : String}
    (h : List.lookup email svc.cache = none) :
    detect_from_email svc email = cache_result svc email (classify_email email) := by
  unfold detect_from_email
  rw [h]

lemma detect_fst_of_good (svc : CompanyDetectionService) (email : String)
    (hgood : CacheGood svc) :
    (detect_from_email svc email).1 = classify_email email := by
  cases h : List.lookup email svc.cache with
  | none => rw [detect_miss h]; rfl
  | some r => rw [detect_hit h]; exact hgood email r (lookup_mem h)

lemma detect_cacheGood {svc : CompanyDetectionService} (email : String)
    (hgood : CacheGood svc) : CacheGood (detect_from_email svc email).2 := by
  cases h : List.lookup email svc.cache with
  | some r => rw [detect_hit h]; exact hgood
  | none =>
    rw [detect_miss h]
    intro e r hmem
    unfold cache_result at hmem
    simp only [List.mem_append, List.mem_singleton] at hmem
    rcases hmem with hmem | hmem
    · have hmem' : (e, r) ∈ svc.cache := by
        by_cases hlen : svc.cache.length > 1000
        · simp only [hlen, if_true] at hmem
          cases hc : svc.cache with
          | nil => rw [hc] at hmem; simp at hmem
          | cons p t =>
            rw [hc] at hmem
            exact hc ▸ List.mem_cons_of_mem p hmem
        · simpa [hlen] using hmem
      exact hgood e r hmem'
    · obtain ⟨he, hr⟩ := Prod.mk.injEq .. ▸ hmem
      rw [hr, he]

lemma detect_miss_cache {svc : CompanyDetectionService} {email : String}
    (h : List.lookup email svc.cache = none) :
    (detect_from_email svc email).2.cache =
      (if svc.cache.length > 1000 then svc.cache.tail else svc.cache)
        ++ [(email, classify_email email)] := by
  rw [detect_miss h]; rfl

lemma detect_hit_cache {svc : CompanyDetectionService} {email : String}
    {r : CompanyDetectionResult} (h : List.lookup email svc.cache = some r) :
    (detect_from_email svc email).2.cache = svc.cache := by
  rw [detect_hit h]

lemma detect_cache_length_le (svc : CompanyDetectionService) (email : String)
    (h : svc.cache.length ≤ 1001) :
    (detect_from_email svc email).2.cache.length ≤ 1001 := by
  cases hl : List.lookup email svc.cache with
  | some r => rw [detect_hit_cache hl]; exact h
  | none =>
    rw [detect_miss_cache hl]
    by_cases hlen : svc.cache.length > 1000
    · simp only [hlen, if_true, List.length_append, List.length_tail,
        List.length_singleton]
      omega
    · simp only [hlen, if_false, List.length_append, List.length_singleton]
      omega

lemma detect_cache_length_miss (svc : CompanyDetectionService) (email : String)
    (h : List.lookup email svc.cache = none) :
    (detect_from_email svc email).2.cache.length =
      if svc.cache.length > 1000 then svc.cache.length
      else svc.cache.length + 1 := by
  rw [detect_miss_cache h]
  by_cases hlen : svc.cache.length > 1000
  · simp only [hlen, if_true, List.length_append, List.length_tail,
      List.length_singleton]
    omega
  · simp [hlen]

lemma detect_preserves_fresh {svc : CompanyDetectionService} {email e' : String}
    (h : List.lookup e' svc.cache = none) (hne : e' ≠ email) :
    List.lookup e' (detect_from_email svc email).2.cache = none := by
  cases hl : List.lookup email svc.cache with
  | some r => rw [detect_hit_cache hl]; exact h
  | none =>
    rw [detect_miss_cache hl]
    by_cases hlen : svc.cache.length > 1000
    · rw [if_pos hlen, lookup_append_single (lookup_tail_none h), if_neg hne]
    · rw [if_neg hlen, lookup_append_single h, if_neg hne]

lemma run_detections_cons (svc : CompanyDetectionService) (e : String)
    (es : List String) :
    run_detections svc (e :: es) =
      run_detections (detect_from_email svc e).2 es := rfl

lemma run_detections_cache_le (emails : List String) :
    ∀ svc : CompanyDetectionService, svc.cache.length ≤ 1001 →
      (run_detections svc emails).cache.length ≤ 1001 := by
  induction emails with
  | nil => intro svc h; exact h
  | cons e es ih =>
    intro svc h
    rw [run_detections_cons]
    exact ih _ (detect_cache_length_le svc e h)

lemma run_detections_length_distinct (emails : List String) :
    ∀ svc : CompanyDetectionService, emails.Nodup →
      (∀ e ∈ emails, List.lookup e svc.cache = none) →
      svc.cache.length ≤ 1001 →
      (run_detections svc emails).cache.length =
        min (svc.cache.length + emails.length) 1001 := by
  induction emails with
  | nil =>
    intro svc _ _ hle
    show svc.cache.length = min (svc.cache.length + ([] : List String).length) 1001
    simp only [List.length_nil]
    omega
  | cons e es ih =>
    intro svc hnd hfresh hle
    rw [run_detections_cons]
    have hmiss : List.lookup e svc.cache = none := hfresh e (List.mem_cons_self e es)
    have hnd' : es.Nodup := (List.nodup_cons.mp hnd).2
    have hne : ∀ e' ∈ es, e' ≠ e := by
      intro e' he' heq
      exact (List.nodup_cons.mp hnd).1 (heq ▸ he')
    have hfresh' : ∀ e' ∈ es,
        List.lookup e' (detect_from_email svc e).2.cache = none := by
      intro e' he'
      exact detect_preserves_fresh (hfresh e' (List.mem_cons_of_mem e he'))
        (hne e' he')
    have hlen := detect_cache_length_miss svc e hmiss
    by_cases hgt : svc.cache.length > 1000
    · have h1001 : svc.cache.length = 1001 := by omega
      have hle' : (detect_from_email svc e).2.cache.length ≤ 1001 := by
        rw [hlen, if_pos hgt]; omega
      rw [ih _ hnd' hfresh' hle', hlen, if_pos hgt, h1001]
      simp only [List.length_cons]
      omega
    · have hle' : (detect_from_email svc e).2.cache.length ≤ 1001 := by
        rw [hlen, if_neg hgt]; omega
      rw [ih _ hnd' hfresh' hle', hlen, if_neg hgt]
      simp only [List.length_cons]
      omega

/-! ### Confidence values of the classifier -/

lemma classify_domain_confidence_mem (domain : String) :
    (classify_domain domain).confidence
      ∈ ({0, 0.2, 0.6, 0.8, 0.9, 1} : Set ℚ) := by
  simp only [Set.mem_insert_iff, Set.mem_singleton_iff]
  unfold classify_domain
  by_cases h1 : personal_providers.contains domain = true
  · rw [if_pos h1]; norm_num
  · rw [if_neg h1]
    by_cases h2 : (pyEndsWith ".edu" domain || pyIn ".edu." domain
        || pyEndsWith ".ac.uk" domain || pyIn ".ac." domain) = true
    · rw [if_pos h2]; norm_num
    · rw [if_neg h2]
      by_cases h3 : (pyEndsWith ".gov" domain || pyEndsWith ".mil" domain
          || pyIn ".gov." domain) = true
      · rw [if_pos h3]; norm_num
      · rw [if_neg h3]
        cases hc : List.lookup domain corporate_info with
        | some info => dsimp only; norm_num
        | none =>
          dsimp only
          by_cases h4 : (extract_company_from_domain domain).isSome = true
          · rw [if_pos h4]; norm_num
          · rw [if_neg h4]; norm_num

lemma classify_confidence_mem (email : String) :
    (classify_email email).confidence
      ∈ ({0, 0.2, 0.6, 0.8, 0.9, 1} : Set ℚ) := by
  unfold classify_email
  cases hd : extract_domain email with
  | none => dsimp only; simp
  | some domain => dsimp only; exact classify_domain_confidence_mem domain

/-! ### Claim C1 -/

/-- The 1001 pairwise-distinct email strings `""`, `"a"`, `"aa"`, …. -/
def distinctEmails : List String :=
  (List.range 1001).map (fun i => String.mk (List.replicate i 'a'))

lemma distinctEmails_nodup : distinctEmails.Nodup := by
  refine List.Nodup.map ?_ (List.nodup_range 1001)
  intro i j h
  have h' := congrArg (fun s => s.data.length) h
  simpa using h'

/-- C1 counterexample: running `detect_from_email` on 1001 distinct emails
from a fresh service leaves 1001 entries in the cache, so the cache does
hold more than 1000 entries, and inserting the 1001st distinct email did
not evict anything. -/
theorem c1_counterexample :
    (run_detections freshService distinctEmails).cache.length = 1001 := by
  have h := run_detections_length_distinct distinctEmails freshService
    distinctEmails_nodup (fun e _ => rfl) (by simp [freshService])
  rw [h]
  simp only [distinctEmails, freshService, List.length_map, List.length_range,
    List.length_nil]
  omega

/-- C1 (amended): the cache never holds more than 1001 entries; eviction
fires only once the cache already holds 1001 entries, so it is the 1002nd
distinct email whose insertion evicts exactly the earliest-inserted
(first-position) entry, leaving the cache size at 1001. -/
theorem c1_cache_bound_and_eviction :
    (∀ emails : List String,
      (run_detections freshService emails).cache.length ≤ 1001) ∧
    (∀ (svc : CompanyDetectionService) (e : String),
      svc.cache.length = 1001 → List.lookup e svc.cache = none →
      (detect_from_email svc e).2.cache
          = svc.cache.tail ++ [(e, (detect_from_email svc e).1)] ∧
        (detect_from_email svc e).2.cache.length = 1001) := by
  constructor
  · intro emails
    exact run_detections_cache_le emails freshService (by simp [freshService])
  · intro svc e hlen hmiss
    have hgt : svc.cache.length > 1000 := by omega
    have hfst : (detect_from_email svc e).1 = classify_email e := by
      rw [detect_miss hmiss]; rfl
    constructor
    · rw [detect_miss_cache hmiss, if_pos hgt, hfst]
    · rw [detect_cache_length_miss svc e hmiss, if_pos hgt, hlen]

/-- A cached result value used to populate a concrete full cache. -/
def dummyResult : CompanyDetectionResult :=
  { company := none, type := "unknown", confidence := 0 }

/-- A concrete service state whose cache holds exactly 1001 entries. -/
def fullSvc : CompanyDetectionService :=
  { cache := List.replicate 1001 ("cached@example.com", dummyResult),
    metrics := freshService.metrics }

lemma lookup_replicate_none {β : Type} {a k : String} (hne : a ≠ k) (v : β) :
    ∀ n, List.lookup a (List.replicate n (k, v)) = none := by
  intro n
  induction n with
  | zero => simp
  | succ m ih =>
    rw [List.replicate_succ, List.lookup_cons, beq_false_of_ne hne]
    exact ih

/-- Witness for the amended C1 at concrete inputs. -/
theorem c1_cache_bound_and_eviction_witness :
    (run_detections freshService ["x@a.com", "y@b.com"]).cache.length ≤ 1001 ∧
    ((detect_from_email fullSvc "z@new.com").2.cache
        = fullSvc.cache.tail
            ++ [("z@new.com", (detect_from_email fullSvc "z@new.com").1)] ∧
      (detect_from_email fullSvc "z@new.com").2.cache.length = 1001) :=
  ⟨c1_cache_bound_and_eviction.1 ["x@a.com", "y@b.com"],
    c1_cache_bound_and_eviction.2 fullSvc "z@new.com"
      (by simp only [fullSvc, List.length_replicate])
      (lookup_replicate_none (by decide) dummyResult 1001)⟩

/-! ### Claim C2 -/

/-- C2: `detect_from_email` is total — every service state and every input
string map to some result and successor state; no error branch exists. -/
theorem c2_detect_total (svc : CompanyDetectionService) (email : String) :
    ∃ (r : CompanyDetectionResult) (svc' : CompanyDetectionService),
      detect_from_email svc email = (r, svc') :=
  ⟨(detect_from_email svc email).1, (detect_from_email svc email).2, rfl⟩

/-! ### Claim C3 -/

/-- C3: when the domain pattern `@([a-zA-Z0-9.-]+)` does not match the
input, `detect_from_email` returns type `unknown`, confidence 0, and
`company` and `website` both `none` (on any state whose cache holds only
the service's own classifications). -/
theorem c3_no_domain_unknown (svc : CompanyDetectionService) (email : String)
    (hgood : CacheGood svc) (hdom : extract_domain email = none) :
    (detect_from_email svc email).1 =
      { company := none, type := "unknown", confidence := 0,
        industry := none, website := none, metadata := none } := by
  rw [detect_fst_of_good svc email hgood]
  unfold classify_email
  rw [hdom]

/-- Witness for C3: a fresh service and an input with no `@`. -/
theorem c3_no_domain_unknown_witness :
    extract_domain "plain text, not an email" = none ∧
    (detect_from_email freshService "plain text, not an email").1 =
      { company := none, type := "unknown", confidence := 0,
        industry := none, website := none, metadata := none } :=
  ⟨by decide,
    c3_no_domain_unknown freshService "plain text, not an email"
      (fun e r hm => by simp [freshService] at hm) (by decide)⟩

/-! ### Claim C4 -/

/-- C4: calling `detect_from_email` twice in succession with the same
email (not already cached) returns the identical cached result on the
second call, and `cache_hits` is incremented by the second call only. -/
theorem c4_repeat_detection_cached (svc : CompanyDetectionService)
    (email : String) (hmiss : List.lookup email svc.cache = none) :
    (detect_from_email (detect_from_email svc email).2 email).1
        = (detect_from_email svc email).1 ∧
    (detect_from_email svc email).2.metrics.cache_hits
        = svc.metrics.cache_hits ∧
    (detect_from_email (detect_from_email svc email).2 email).2.metrics.cache_hits
        = (detect_from_email svc email).2.metrics.cache_hits + 1 := by
  have hlook : List.lookup email (detect_from_email svc email).2.cache
      = some (classify_email email) := by
    rw [detect_miss_cache hmiss]
    by_cases hlen : svc.cache.length > 1000
    · rw [if_pos hlen, lookup_append_single (lookup_tail_none hmiss), if_pos rfl]
    · rw [if_neg hlen, lookup_append_single hmiss, if_pos rfl]
  have hfst : (detect_from_email svc email).1 = classify_email email := by
    rw [detect_miss hmiss]; rfl
  refine ⟨?_, ?_, ?_⟩
  · rw [detect_hit hlook, hfst]
  · rw [detect_miss hmiss]; rfl
  · rw [detect_hit hlook]

/-- Witness for C4 at a fresh service and a concrete email. -/
theorem c4_repeat_detection_cached_witness :
    (detect_from_email (detect_from_email freshService "bob@acme.com").2
        "bob@acme.com").1
      = (detect_from_email freshService "bob@acme.com").1 ∧
    (detect_from_email freshService "bob@acme.com").2.metrics.cache_hits
      = freshService.metrics.cache_hits ∧
    (detect_from_email (detect_from_email freshService "bob@acme.com").2
        "bob@acme.com").2.metrics.cache_hits
      = (detect_from_email freshService "bob@acme.com").2.metrics.cache_hits
          + 1 :=
  c4_repeat_detection_cached freshService "bob@acme.com" rfl

/-! ### Claim C5 -/

/-- C5: on a domain matching none of the personal / educational /
government / known-corporate rules, the result is the fallback: company
from `_extract_company_from_domain` (prefix strip, TLD strip, capitalize,
`none` under 2 chars), type `corporate`, confidence 0.6 when a name was
extracted else 0.2, industry from `_infer_industry` keyword substrings,
website set to the domain only when a name was extracted. -/
theorem c5_fallback_extraction (svc : CompanyDetectionService)
    (email domain : String) (hgood : CacheGood svc)
    (hdom : extract_domain email = some domain)
    (hpers : personal_providers.contains domain = false)
    (hedu : (pyEndsWith ".edu" domain || pyIn ".edu." domain
        || pyEndsWith ".ac.uk" domain || pyIn ".ac." domain) = false)
    (hgov : (pyEndsWith ".gov" domain || pyEndsWith ".mil" domain
        || pyIn ".gov." domain) = false)
    (hcorp : List.lookup domain corporate_info = none) :
    (detect_from_email svc email).1 =
      { company := extract_company_from_domain domain,
        type := "corporate",
        confidence :=
          if (extract_company_from_domain domain).isSome then 0.6 else 0.2,
        industry := infer_industry domain,
        website :=
          if (extract_company_from_domain domain).isSome then some domain
          else none,
        metadata := none } := by
  rw [detect_fst_of_good svc email hgood]
  have hp1 : ¬ (personal_providers.contains domain = true) := by
    rw [hpers]; simp
  have hp2 : ¬ ((pyEndsWith ".edu" domain || pyIn ".edu." domain
      || pyEndsWith ".ac.uk" domain || pyIn ".ac." domain) = true) := by
    rw [hedu]; simp
  have hp3 : ¬ ((pyEndsWith ".gov" domain || pyEndsWith ".mil" domain
      || pyIn ".gov." domain) = true) := by
    rw [hgov]; simp
  unfold classify_email
  simp only [hdom]
  unfold classify_domain
  rw [if_neg hp1, if_neg hp2, if_neg hp3]
  simp only [hcorp]

/-- Witness for C5: `jane@myunknownstartup.io` yields type corporate,
company `Myunknownstartup`, confidence 0.6, website
`myunknownstartup.io`. -/
theorem c5_fallback_extraction_witness :
    extract_domain "jane@myunknownstartup.io" = some "myunknownstartup.io" ∧
    (detect_from_email freshService "jane@myunknownstartup.io").1 =
      { company := some "Myunknownstartup", type := "corporate",
        confidence := 0.6, industry := none,
        website := some "myunknownstartup.io", metadata := none } := by
  have h := c5_fallback_extraction freshService "jane@myunknownstartup.io"
    "myunknownstartup.io" (fun e r hm => by simp [freshService] at hm)
    (by decide) (by decide) (by decide) (by decide) (by decide)
  have e1 : extract_company_from_domain "myunknownstartup.io"
      = some "Myunknownstartup" := by decide
  have e2 : infer_industry "myunknownstartup.io" = none := by decide
  refine ⟨by decide, ?_⟩
  rw [h, e1, e2]
  simp

/-! ### Claim C6 -/

/-- C6: every result returned by `detect_from_email` (on any state whose
cache holds only the service's own classifications) has a confidence
among 0, 0.2, 0.6, 0.8, 0.9, 1 — in particular inside [0, 1]. -/
theorem c6_confidence_bounds (svc : CompanyDetectionService) (email : String)
    (hgood : CacheGood svc) :
    (detect_from_email svc email).1.confidence
        ∈ ({0, 0.2, 0.6, 0.8, 0.9, 1} : Set ℚ) ∧
    0 ≤ (detect_from_email svc email).1.confidence ∧
    (detect_from_email svc email).1.confidence ≤ 1 := by
  rw [detect_fst_of_good svc email hgood]
  have hm := classify_confidence_mem email
  refine ⟨hm, ?_, ?_⟩ <;>
  · simp only [Set.mem_insert_iff, Set.mem_singleton_iff] at hm
    rcases hm with h | h | h | h | h | h <;> rw [h] <;> norm_num

/-- Witness for C6 at a fresh service and a concrete email. -/
theorem c6_confidence_bounds_witness :
    (detect_from_email freshService "x@gmail.com").1.confidence
        ∈ ({0, 0.2, 0.6, 0.8, 0.9, 1} : Set ℚ) ∧
    0 ≤ (detect_from_email freshService "x@gmail.com").1.confidence ∧
    (detect_from_email freshService "x@gmail.com").1.confidence ≤ 1 :=
  c6_confidence_bounds freshService "x@gmail.com"
    (fun e r hm => by simp [freshService] at hm)

/-! ### Claim C7 -/

/-- C7: `clear_cache` empties the cache and zeroes the `cache_size`
metric while leaving `total_detections` and `cache_hits` unchanged. -/
theorem c7_clear_cache_frame (svc : CompanyDetectionService) :
    (clear_cache svc).cache = [] ∧
    (clear_cache svc).metrics.cache_size = 0 ∧
    (clear_cache svc).metrics.total_detections
        = svc.metrics.total_detections ∧
    (clear_cache svc).metrics.cache_hits = svc.metrics.cache_hits :=
  ⟨rfl, rfl, rfl, rfl⟩

/-! ### Resend email service (`email/resend_service.py`)

The outbound call `resend.Emails.send(params)` is modelled as an oracle
`provider : EmailParams → Except String (Option String)` supplied as a
parameter: `.error msg` models the call raising an exception whose
`str(e)` is `msg`, and `.ok idOpt` models a successful call whose
response dict has `response.get("id") = idOpt`.  Bytes are modelled as
`List ℕ`. -/

/-- `dataclass EmailAttachment` (resend_service.py lines 13-18). -/
structure EmailAttachment where
  filename : String
  content : List ℕ
  content_type : String := "application/octet-stream"
deriving DecidableEq, Repr

/-- `dataclass EmailResult` (resend_service.py lines 20-25). -/
structure EmailResult where
  success : Bool
  message_id : Option String := none
  error : Option String := none
deriving DecidableEq, Repr

/-- The `to: str | List[str]` argument of `send_email`. -/
inductive Recipient where
  | single (s : String)
  | several (l : List String)
deriving DecidableEq, Repr

/-- The params dict handed over in `resend.Emails.send(params)` (resend_service.py
lines 85-117).  A key that Python leaves out of the dict is `none`. -/
structure EmailParams where
  fromAddr : String
  to_ : List String
  subject : String
  html : Option String := none
  text : Option String := none
  reply_to : Option String := none
  tags : Option (List (String × String)) := none
  attachments : Option (List EmailAttachment) := none
deriving DecidableEq, Repr

/-- The service state built by `ResendService.__init__`: claims only
touch `from_email`. -/
structure ResendService where
  from_email : String
deriving DecidableEq, Repr

/-- Python truthiness of an `Optional[str]`: `None` and `""` are falsy. -/
def truthyStr : Option String → Bool
  | none => false
  | some s => !s.isEmpty

/-- Python truthiness of an optional list (`None` and `[]` are falsy). -/
def truthyList {α : Type} : Option (List α) → Bool
  | none => false
  | some l => !l.isEmpty

/-- The params dict as built by `send_email` (resend_service.py lines
81-117) once both content checks passed: `from` falls back on the
configured sender when `from_email` is falsy, a string `to` is wrapped
in a list, and the falsy optional arguments are left out of the dict. -/
def build_params (svc : ResendService) (to_ : Recipient) (subject : String)
    (html text from_email reply_to : Option String)
    (attachments : Option (List EmailAttachment))
    (tags : Option (List (String × String))) : EmailParams :=
  { fromAddr := if truthyStr from_email then from_email.getD "" else svc.from_email,
    to_ := match to_ with
      | .single s => [s]
      | .several l => l,
    subject := subject,
    html := if truthyStr html then html else none,
    text := if truthyStr text then text else none,
    reply_to := if truthyStr reply_to then reply_to else none,
    tags := if truthyList tags then tags else none,
    attachments := if truthyList attachments then attachments else none }

/-- `send_email` (resend_service.py lines 52-132).  Returns the
`EmailResult` together with the number of times the outbound provider was
invoked.  The `try/except` around the body catches any exception raised
by the provider call and converts it into a failure result. -/
def send_email (provider : EmailParams → Except String (Option String))
    (svc : ResendService) (to_ : Recipient) (subject : String)
    (html text from_email reply_to : Option String)
    (attachments : Option (List EmailAttachment))
    (tags : Option (List (String × String))) : EmailResult × ℕ :=
  if !truthyStr html && !truthyStr text then
    ({ success := false, message_id := none,
       error := some "Either HTML or text content is required" }, 0)
  else
    match provider (build_params svc to_ subject html text from_email
        reply_to attachments tags) with
    | .ok response =>
      ({ success := true, message_id := response, error := none }, 1)
    | .error e =>
      ({ success := false, message_id := none, error := some e }, 1)

/-! ### Claim C8 -/

/-- C8: whenever some content is present, a provider call that raises is
caught and becomes `success := false` with the exception message as the
error (no exception propagates — `send_email` is total); a successful
provider call yields `success := true` with the provider's message id. -/
theorem c8_send_email_error_handling
    (provider : EmailParams → Except String (Option String))
    (svc : ResendService) (to_ : Recipient) (subject : String)
    (html text from_email reply_to : Option String)
    (attachments : Option (List EmailAttachment))
    (tags : Option (List (String × String)))
    (hcontent : (truthyStr html || truthyStr text) = true) :
    (∀ msg, provider (build_params svc to_ subject html text from_email
          reply_to attachments tags) = .error msg →
      send_email provider svc to_ subject html text from_email reply_to
          attachments tags =
        ({ success := false, message_id := none, error := some msg }, 1)) ∧
    (∀ idOpt, provider (build_params svc to_ subject html text from_email
          reply_to attachments tags) = .ok idOpt →
      send_email provider svc to_ subject html text from_email reply_to
          attachments tags =
        ({ success := true, message_id := idOpt, error := none }, 1)) := by
  have hcond : ¬ ((!truthyStr html && !truthyStr text) = true) := by
    rcases Bool.or_eq_true _ _ |>.mp hcontent with h | h <;> simp [h]
  constructor
  · intro msg hp
    unfold send_email
    rw [if_neg hcond, hp]
  · intro idOpt hp
    unfold send_email
    rw [if_neg hcond, hp]

/-- Witness for C8: one provider that raises and one that succeeds, on a
concrete email. -/
theorem c8_send_email_error_handling_witness :
    send_email (fun _ => .error "Connection timed out")
        { from_email := "noreply@yourdomain.com" }
        (.single "a@b.com") "Hello" (some "<p>Hi</p>") none none none
        none none =
      ({ success := false, message_id := none,
         error := some "Connection timed out" }, 1) ∧
    send_email (fun _ => .ok (some "msg_123"))
        { from_email := "noreply@yourdomain.com" }
        (.single "a@b.com") "Hello" (some "<p>Hi</p>") none none none
        none none =
      ({ success := true, message_id := some "msg_123", error := none }, 1) :=
  ⟨(c8_send_email_error_handling (fun _ => .error "Connection timed out")
      { from_email := "noreply@yourdomain.com" } (.single "a@b.com") "Hello"
      (some "<p>Hi</p>") none none none none none (by decide)).1
      "Connection timed out" rfl,
    (c8_send_email_error_handling (fun _ => .ok (some "msg_123"))
      { from_email := "noreply@yourdomain.com" } (.single "a@b.com") "Hello"
      (some "<p>Hi</p>") none none none none none (by decide)).2
      (some "msg_123") rfl⟩

/-! ### Claim C10 -/

/-- C10: with both `html` and `text` absent (`None` or empty),
`send_email` returns the content-required failure and never invokes the
provider (invocation count 0). -/
theorem c10_send_email_requires_content
    (provider : EmailParams → Except String (Option String))
    (svc : ResendService) (to_ : Recipient) (subject : String)
    (html text from_email reply_to : Option String)
    (attachments : Option (List EmailAttachment))
    (tags : Option (List (String × String)))
    (hh : truthyStr html = false) (ht : truthyStr text = false) :
    send_email provider svc to_ subject html text from_email reply_to
        attachments tags =
      ({ success := false, message_id := none,
         error := some "Either HTML or text content is required" }, 0) := by
  unfold send_email
  rw [if_pos (by rw [hh, ht]; rfl)]

/-- Witness for C10: `html = None`, `text = ""`. -/
theorem c10_send_email_requires_content_witness :
    send_email (fun _ => .ok (some "msg_999"))
        { from_email := "noreply@yourdomain.com" }
        (.single "a@b.com") "Hello" none (some "") none none none none =
      ({ success := false, message_id := none,
         error := some "Either HTML or text content is required" }, 0) :=
  c10_send_email_requires_content (fun _ => .ok (some "msg_999"))
    { from_email := "noreply@yourdomain.com" } (.single "a@b.com") "Hello"
    none (some "") none none none none rfl rfl

/-! ### Magic-link profile update (`supabase_auth/magic_link_old.py`)

Only the name-parsing effect of `update_profile` (lines 242-246) is
claim-relevant; the database row is modelled by its two name fields and
the `updates` dict by an association list. -/

/-- The ASCII whitespace stripped by Python `str.strip()`. -/
def pyIsSpace (c : Char) : Bool :=
  c == ' ' || c == '\t' || c == '\n' || c == '\r' || c == '\x0b' || c == '\x0c'

/-- Python `str.strip()`. -/
def pyStrip (s : String) : String :=
  String.mk (((s.data.dropWhile pyIsSpace).reverse.dropWhile pyIsSpace).reverse)

/-- Python `s.split(" ")`: cut at every single space, keeping empty
pieces; the result is always non-empty. -/
def splitSpL : List Char → List (List Char)
  | [] => [[]]
  | c :: rest =>
    match splitSpL rest with
    | [] => [[c]]
    | w :: ws => if c == ' ' then [] :: w :: ws else (c :: w) :: ws

/-- The user row's name fields. -/
structure UserProfile where
  first_name : String
  last_name : String
deriving DecidableEq, Repr

/-- The `"name"` handling of `update_profile` (magic_link_old.py lines
242-246): `name_parts = updates["name"].strip().split(" ")`, then
`first_name = name_parts[0] if name_parts else ""` and
`last_name = " ".join(name_parts[1:]) if len(name_parts) > 1 else ""`. -/
def parse_name (name : String) : String × String :=
  let parts := splitSpL (pyStrip name).data
  (match parts with
    | [] => ""
    | w :: _ => String.mk w,
   if parts.length > 1 then String.mk (joinSpL parts.tail) else "")

/-- The effect of `update_profile` on the user row's name fields for a
given `updates` mapping (magic_link_old.py lines 242-246); without a
`"name"` key the fields are untouched. -/
def update_profile_names (user : UserProfile)
    (updates : List (String × String)) : UserProfile :=
  match List.lookup "name" updates with
  | none => user
  | some nm =>
    { user with first_name := (parse_name nm).1,
                last_name := (parse_name nm).2 }

/-- Spec-side formulation for C9 (from the spec's words, for comparison
with the code): the text before the first space. -/
def spec_before_first_space (s : String) : String :=
  String.mk (s.data.takeWhile (fun c => !(c == ' ')))

/-- Spec-side formulation for C9 (from the spec's words): everything
after the first space, empty when the string contains no space. -/
def spec_after_first_space (s : String) : String :=
  if ' ' ∈ s.data then
    String.mk ((s.data.dropWhile (fun c => !(c == ' '))).tail)
  else ""

lemma splitSpL_ne_nil (l : List Char) : splitSpL l ≠ [] := by
  cases l with
  | nil => simp [splitSpL]
  | cons c rest =>
    unfold splitSpL
    cases splitSpL rest with
    | nil => simp
    | cons w ws => by_cases h : (c == ' ') = true <;> simp [h]

lemma joinSpL_splitSpL (l : List Char) : joinSpL (splitSpL l) = l := by
  induction l with
  | nil => rfl
  | cons c rest ih =>
    unfold splitSpL
    cases h : splitSpL rest with
    | nil => exact absurd h (splitSpL_ne_nil rest)
    | cons w ws =>
      rw [h] at ih
      by_cases hc : (c == ' ') = true
      · have hceq : c = ' ' := by simpa using hc
        simp only [if_pos hc]
        show [] ++ ' ' :: joinSpL (w :: ws) = c :: rest
        rw [ih, hceq, List.nil_append]
      · simp only [if_neg hc]
        cases ws with
        | nil =>
          show c :: w = c :: rest
          rw [show joinSpL [w] = w from rfl] at ih
          rw [ih]
        | cons v t =>
          show (c :: w) ++ ' ' :: joinSpL (v :: t) = c :: rest
          rw [List.cons_append, ← ih]
          rfl

lemma splitSpL_spec (l : List Char) :
    ∃ w ws, splitSpL l = w :: ws ∧
      w = l.takeWhile (fun c => !(c == ' ')) ∧
      ((ws = [] ∧ l.dropWhile (fun c => !(c == ' ')) = []) ∨
        (ws ≠ [] ∧ l.dropWhile (fun c => !(c == ' '))
            = ' ' :: joinSpL ws)) := by
  induction l with
  | nil => exact ⟨[], [], rfl, rfl, Or.inl ⟨rfl, rfl⟩⟩
  | cons c rest ih =>
    obtain ⟨w, ws, hsplit, hw, hcase⟩ := ih
    by_cases hc : (c == ' ') = true
    · have hceq : c = ' ' := by simpa using hc
      subst hceq
      have hjoin : joinSpL (w :: ws) = rest := by
        rw [← hsplit, joinSpL_splitSpL]
      refine ⟨[], w :: ws, ?_, ?_, Or.inr ⟨by simp, ?_⟩⟩
      · unfold splitSpL; simp only [hsplit, if_pos hc]
      · simp [List.takeWhile_cons]
      · simp [List.dropWhile_cons, hjoin]
    · have hcf : (c == ' ') = false := by simpa using hc
      refine ⟨c :: w, ws, ?_, ?_, ?_⟩
      · unfold splitSpL; simp only [hsplit, if_neg hc]
      · rw [hw, List.takeWhile_cons, hcf]
        rfl
      · rw [List.dropWhile_cons, hcf]
        simpa using hcase

/-! ### Claim C9 -/

/-- C9: when `updates` carries a `"name"` key, `update_profile` sets
`first_name` to the text of the stripped name before the first space and
`last_name` to everything after the first space (empty when the stripped
name has no space). -/
theorem c9_update_profile_name_split (user : UserProfile)
    (updates : List (String × String)) (nm : String)
    (hname : List.lookup "name" updates = some nm) :
    (update_profile_names user updates).first_name
        = spec_before_first_space (pyStrip nm) ∧
    (update_profile_names user updates).last_name
        = spec_after_first_space (pyStrip nm) := by
  unfold update_profile_names
  simp only [hname]
  unfold parse_name spec_before_first_space spec_after_first_space
  obtain ⟨w, ws, hsplit, hw, hcase⟩ := splitSpL_spec (pyStrip nm).data
  constructor
  · simp only [hsplit]
    rw [hw]
  · simp only [hsplit]
    rcases hcase with ⟨hws, hdrop⟩ | ⟨hws, hdrop⟩
    · subst hws
      have h1 : ¬ (([w] : List (List Char)).length > 1) := by simp
      have hnosp : ¬ (' ' ∈ (pyStrip nm).data) := by
        intro hmem
        have hall := List.dropWhile_eq_nil_iff.mp hdrop
        simpa using hall ' ' hmem
      rw [if_neg h1, if_neg hnosp]
    · have hlen : (w :: ws).length > 1 := by
        cases ws with
        | nil => exact absurd rfl hws
        | cons v t => simp
      have hmem : ' ' ∈ (pyStrip nm).data := by
        have hsub :=
          (List.dropWhile_sublist (fun c => !(c == ' '))
            (l := (pyStrip nm).data)).subset
        rw [hdrop] at hsub
        exact hsub (List.mem_cons_self _ _)
      rw [if_pos hlen, if_pos hmem, hdrop]
      rfl

/-- Witness for C9: a concrete profile update whose stripped name has an
inner space, evaluated to the concrete first/last names. -/
theorem c9_update_profile_name_split_witness :
    (update_profile_names { first_name := "", last_name := "" }
        [("company", "Acme"), ("name", "  Jane Q. Public ")]).first_name
      = "Jane" ∧
    (update_profile_names { first_name := "", last_name := "" }
        [("company", "Acme"), ("name", "  Jane Q. Public ")]).last_name
      = "Q. Public" := by
  have h := c9_update_profile_name_split { first_name := "", last_name := "" }
    [("company", "Acme"), ("name", "  Jane Q. Public ")] "  Jane Q. Public "
    (by decide)
  rw [h.1, h.2]
  exact ⟨by decide, by decide⟩

end SharedServices
